import Mathlib

/-!
Verification of the mio-mongo storage plugin (`src/lib/mio-mongo.js`).

We shallowly embed the plugin's pure data transformations and its
relation-resolving query pipeline.  JavaScript values are modelled by the
inductive `Value`; JS objects are association lists in key-insertion order;
the mongo driver (an external collaborator, stubbed in the repository's own
tests) is modelled by `storeFind`, a filter over per-collection document
lists using equality and `$in` matching.
-/

namespace MioMongo

/-- A JavaScript value as manipulated by mio-mongo.  `vOid` is the driver's
native identifier type (`ObjectID`), kept abstract as its hex string. -/
inductive Value where
  | vUndefined : Value
  | vNull : Value
  | vBool : Bool → Value
  | vNum : Int → Value
  | vStr : String → Value
  | vDate : Nat → Value
  | vOid : String → Value
  | vObj : List (String × Value) → Value
  | vArr : List Value → Value
  deriving Repr, BEq

abbrev JsObj := List (String × Value)

/-- Reading a property: a missing key yields `undefined`. -/
def jsGet (o : JsObj) (k : String) : Value :=
  (o.lookup k).getD .vUndefined

/-- Writing a property: an existing key is updated in place, a new key is
appended (JS insertion-order enumeration). -/
def jsSet (o : JsObj) (k : String) (v : Value) : JsObj :=
  match o.lookup k with
  | none => o ++ [(k, v)]
  | some _ => o.map (fun p => if p.1 = k then (k, v) else p)

/-- `delete o[k]`. -/
def jsDelete (o : JsObj) (k : String) : JsObj :=
  o.filter (fun p => p.1 ≠ k)

/-- JS truthiness (`if (v)`). -/
def jsTruthy : Value → Bool
  | .vUndefined => false
  | .vNull => false
  | .vBool b => b
  | .vNum n => n ≠ 0
  | .vStr s => s ≠ ""
  | _ => true

/-- JS strict equality `===` restricted to the provenance situation in the
pipeline: primitives compare by value; object-typed values (dates, native
ids, objects, arrays) coming from two distinct store fetches are distinct
references, hence `===` is false. -/
def jsStrictEq : Value → Value → Bool
  | .vNull, .vNull => true
  | .vUndefined, .vUndefined => true
  | .vBool a, .vBool b => a == b
  | .vNum a, .vNum b => a == b
  | .vStr a, .vStr b => a == b
  | _, _ => false

/-- `typeof v === 'object' && v !== null`. -/
def isObjectNotNull : Value → Bool
  | .vDate _ => true
  | .vOid _ => true
  | .vObj _ => true
  | .vArr _ => true
  | _ => false

/-- `typeof v !== 'undefined'`. -/
def isDefined : Value → Bool
  | .vUndefined => false
  | _ => true

/-- Relation kinds (`belongsTo`, `hasOne`, `hasMany`). -/
inductive RelType where
  | belongsTo : RelType
  | hasOne : RelType
  | hasMany : RelType
  deriving Repr, BEq, DecidableEq

/-- A relation descriptor.  `target` names the target entity type in an
environment (the source resolves it through `factory`, possibly lazily). -/
structure Relation where
  type : RelType
  target : String
  foreignKey : String
  attributeName : Option String := none
  nested : Bool := false
  deriving Repr, BEq, DecidableEq

/-- An attribute default: either a function (modelled by the value it
returns) or a static value. -/
inductive DefaultSpec where
  | func : Value → DefaultSpec
  | static : Value → DefaultSpec
  deriving Repr, BEq

/-- An attribute descriptor, as in mio schema declarations. -/
structure Attr where
  aliasName : Option String := none
  primary : Bool := false
  objectId : Bool := false
  transient : Bool := false
  relation : Option Relation := none
  defaultSpec : Option DefaultSpec := none
  deriving Repr, BEq

abbrev Attrs := List (String × Attr)

/-- An entity type: schema, derived primary-key name, mongo collection. -/
structure EntityType where
  name : String
  collection : String
  attributes : Attrs
  primaryKey : String
  deriving Repr, BEq

abbrev Env := List (String × EntityType)

/-- Is `v` a plain object or array, i.e. does the source's
`typeof val === 'object' && val !== null && val.constructor !== Date`
recursion guard hold?  (Native ids do not occur in domain-side input, so
they are treated as opaque leaves.) -/
def isPlainContainer : Value → Bool
  | .vObj _ => true
  | .vArr _ => true
  | _ => false

/-- `key.split('.')` (JS `String#split` on a dot). -/
def splitDotsAux : List Char → List Char → List String
  | [], acc => [String.mk acc.reverse]
  | c :: rest, acc =>
    if c == '.' then String.mk acc.reverse :: splitDotsAux rest []
    else splitDotsAux rest (c :: acc)

def splitDots (k : String) : List String :=
  splitDotsAux k.data []

/-- `key.charAt(0) === '$'` (src/lib/mio-mongo.js:1168). -/
def isKeywordKey (k : String) : Bool :=
  match k.data with
  | c :: _ => c == '$'
  | [] => false

mutual

/-- `prepareQueryOrDocument` (src/lib/mio-mongo.js:1157): translate a
domain query or document to storage form.  `oidOf` is the driver's
`ObjectID` constructor (external collaborator).  A primitive `obj` has no
enumerable keys, so the source's `for`-in produces an empty object. -/
def prepareQueryOrDocument (oidOf : String → Value) (attributes : Attrs)
    (obj : Value) (parentAttr : Option Attr) : Value :=
  match obj with
  | .vObj fields => .vObj (prepareFields oidOf attributes parentAttr [] fields)
  | .vArr elems => .vArr (prepareElems oidOf attributes parentAttr elems)
  | _ => .vObj []

/-- One `for (var key in obj)` step of `prepareQueryOrDocument` over an
object, accumulating into `acc` (JS property assignment). -/
def prepareFields (oidOf : String → Value) (attributes : Attrs)
    (parentAttr : Option Attr) (acc : JsObj) :
    List (String × Value) → JsObj
  | [] => acc
  | (key, val) :: rest =>
    let currAttr := attributes.lookup key
    let attr := currAttr <|> parentAttr
    let aliasName := currAttr.bind (·.aliasName)
    let isStr := match val with | .vStr _ => true | _ => false
    let toObjectId := isStr && (match attr with
      | some a => a.objectId
      | none => false)
    let isKeyword := isKeywordKey key
    let keep := match attr with
      | none => true
      | some a => !a.relation.isSome && !a.transient
    let acc' :=
      if keep then
        if isPlainContainer val then
          jsSet acc (aliasName.getD key)
            (prepareQueryOrDocument oidOf attributes val
              (if !isKeyword && currAttr.isSome then currAttr else parentAttr))
        else
          jsSet acc (aliasName.getD key)
            (if toObjectId then oidOf (match val with | .vStr s => s | _ => "")
             else val)
      else acc
    prepareFields oidOf attributes parentAttr acc' rest

/-- `prepareQueryOrDocument` over an array: indices are never declared
attribute names, so `currAttr` is absent and `parentAttr` is inherited. -/
def prepareElems (oidOf : String → Value) (attributes : Attrs)
    (parentAttr : Option Attr) : List Value → List Value
  | [] => []
  | val :: rest =>
    let isStr := match val with | .vStr _ => true | _ => false
    let toObjectId := isStr && (match parentAttr with
      | some a => a.objectId
      | none => false)
    let keep := match parentAttr with
      | none => true
      | some a => !a.relation.isSome && !a.transient
    let elem :=
      if isPlainContainer val then
        prepareQueryOrDocument oidOf attributes val parentAttr
      else
        if toObjectId then oidOf (match val with | .vStr s => s | _ => "")
        else val
    if keep then elem :: prepareElems oidOf attributes parentAttr rest
    else prepareElems oidOf attributes parentAttr rest

end

/-- `ObjectID#toString` for the abstract native id; other object receivers
stringify to irrelevant junk (never reached on identifier attributes). -/
def oidToString : Value → String
  | .vOid s => s
  | _ => "[object Object]"

/-- `prepareResource` (src/lib/mio-mongo.js:1197): translate a raw mongo
document to domain attribute names, stringifying native ids.  `toStr` is
the native id's `toString` (external collaborator); iteration follows the
schema, mutating the document in place. -/
def prepareResourceStep (toStr : Value → String) (acc : JsObj)
    (entry : String × Attr) : JsObj :=
  let key := entry.1
  let attr := entry.2
  let aliasName := attr.aliasName
  let storageKey := aliasName.getD key
  let value := jsGet acc storageKey
  let acc1 :=
    if isObjectNotNull value && attr.objectId then
      jsSet acc storageKey (.vStr (toStr value))
    else acc
  match aliasName with
  | some a =>
    if isDefined (jsGet acc1 a) then
      jsDelete (jsSet acc1 key (jsGet acc1 a)) a
    else acc1
  | none => acc1

def prepareResource (toStr : Value → String) (schema : Attrs)
    (attributes : JsObj) : JsObj :=
  schema.foldl (prepareResourceStep toStr) attributes

/-- Domain-level query state (the subset of a mio `Query`'s `toJSON` the
option builder consumes). -/
structure QueryState where
  sort : Option JsObj := none
  fromIdx : Value := .vUndefined
  size : Value := .vUndefined
  withCount : Bool := false
  deriving Repr, BEq

/-- Storage-level query options. -/
structure MongoOptions where
  sort : Option JsObj := none
  skip : Value := .vNum 0
  limit : Option Value := none
  withCount : Bool := false
  deriving Repr, BEq

/-- `Number(v)` on the paging values the builder sees (numeric inputs;
`NaN` cases are out of scope for the claims). -/
def jsNumber : Value → Value
  | .vNum n => .vNum n
  | .vNull => .vNum 0
  | .vBool b => .vNum (if b then 1 else 0)
  | .vStr s => .vNum ((s.toInt?).getD 0)
  | v => v

/-- One sort entry of `buildQueryOptions` (src/lib/mio-mongo.js:1239):
the string `"desc"` maps to `-1`, any other string to `1`, and non-string
values pass through. -/
def sortEntry : String × Value → String × Value
  | (key, .vStr s) => (key, .vNum (if s = "desc" then -1 else 1))
  | (key, v) => (key, v)

/-- `buildQueryOptions` (src/lib/mio-mongo.js:1226). -/
def buildQueryOptions (query : QueryState) : MongoOptions :=
  let options0 : MongoOptions := { sort := none, skip := .vNum 0, limit := none, withCount := false }
  let options1 :=
    match query.sort with
    | none => options0
    | some sort => { options0 with sort := some (sort.map sortEntry) }
  let options2 := { options1 with
    skip := jsNumber (if jsTruthy query.fromIdx then query.fromIdx else .vNum 0) }
  let options3 :=
    if jsTruthy query.size then { options2 with limit := some (jsNumber query.size) }
    else options2
  if query.withCount then { options3 with withCount := true } else options3

/-! ### The store stub

The mongo driver is an external collaborator (stubbed by the repository's
own tests).  We model a collection as a list of documents and `find` as a
filter under equality / `$in` matching; `$in` with an empty array matches
nothing, and `find(undefined)` matches everything. -/

abbrev Store := List (String × List JsObj)

/-- Does the document value `dv` satisfy the predicate value `cond`
(`{$in: [...]}` or a literal)? -/
def condMatches (dv : Value) (cond : Value) : Bool :=
  match cond with
  | .vObj fields =>
    match fields.lookup "$in" with
    | some (.vArr xs) => xs.any (fun x => jsStrictEq dv x)
    | _ => false
  | c => jsStrictEq dv c

/-- Does `doc` match `query`?  A non-object query (`undefined`/`null`)
matches every document, as the driver's `find` does. -/
def docMatches (doc : JsObj) (query : Value) : Bool :=
  match query with
  | .vObj conds => conds.all (fun p => condMatches (jsGet doc p.1) p.2)
  | _ => true

/-- The driver's `collection.find`. -/
def storeFind (store : Store) (coll : String) (query : Value) : List JsObj :=
  ((store.lookup coll).getD []).filter (fun d => docMatches d query)

/-- A store query issued by the pipeline, in issue order. -/
inductive StoreOp where
  | findQ : String → Value → StoreOp
  | findOneQ : String → Value → StoreOp
  deriving Repr, BEq

/-- A synchronous JS failure surfaced by the pipeline. -/
inductive JsError where
  | typeError : JsError
  | missingEntity : String → JsError
  deriving Repr, BEq

/-- Driver method used per relation kind (src/lib/mio-mongo.js:46). -/
def methods : RelType → String
  | .hasOne => "findOne"
  | .hasMany => "find"
  | .belongsTo => "findOne"

/-! ### `unpack` (src/lib/mio-mongo.js:1272)

`unpack` expands dotted keys into nested objects — but only when the
value is a string (`typeof obj[key] === 'string'`); object values are
recursed into without expanding their own dotted key, and all other
values are left untouched.  Enumeration follows the object's original
key snapshot. -/

/-- Build the nested object a dotted path expands to. -/
def nestPath : List String → Value → Value
  | [], v => v
  | s :: rest, v => .vObj [(s, nestPath rest v)]

mutual

/-- `unpack` on a value: objects are expanded in place, arrays are
enumerated like objects (their elements recursed), primitives have no
enumerable keys. -/
def unpackValue : Value → Value
  | .vObj fields => .vObj (unpackSteps fields fields)
  | .vArr elems => .vArr (unpackElems elems)
  | v => v

/-- One enumeration pass over the key snapshot, threading the evolving
object `o`. -/
def unpackSteps (o : JsObj) : List (String × Value) → JsObj
  | [] => o
  | (key, val) :: rest =>
    let o' :=
      match val with
      | .vStr _ =>
        let segs := splitDots key
        match segs with
        | [] => o
        | [_] => o
        | headSeg :: tailSegs =>
          jsDelete (jsSet o headSeg (nestPath tailSegs val)) key
      | .vObj fields => jsSet o key (.vObj (unpackSteps fields fields))
      | .vArr elems => jsSet o key (.vArr (unpackElems elems))
      | _ => o
    unpackSteps o' rest

def unpackElems : List Value → List Value
  | [] => []
  | v :: rest => unpackValue v :: unpackElems rest

end

/-- `unpack(clone(where))`: `clone` is a shallow copy, the identity in
this pure model. -/
def unpackTop (o : JsObj) : JsObj :=
  unpackSteps o o

/-! ### The `$in` accumulator (src/lib/mio-mongo.js:1305) -/

/-- `$in(docs, obj, key, docKey)`: initialize `obj[key]` to `{$in: []}`
when falsy, then push each `doc[docKey]`.  When `obj[key]` is already a
truthy value without an `$in` array, the push throws (`TypeError`) on the
first document. -/
def dollarIn (docs : List JsObj) (obj : JsObj) (key docKey : String) :
    Except JsError JsObj :=
  let obj1 :=
    if !(jsTruthy (jsGet obj key)) then
      jsSet obj key (.vObj [("$in", .vArr [])])
    else obj
  match jsGet obj1 key with
  | .vObj fields =>
    match fields.lookup "$in" with
    | some (.vArr xs) =>
      .ok (jsSet obj1 key
        (.vObj (jsSet fields "$in" (.vArr (xs ++ docs.map (fun d => jsGet d docKey))))))
    | _ => if docs.isEmpty then .ok obj1 else .error .typeError
  | _ => if docs.isEmpty then .ok obj1 else .error .typeError

/-! ### Relation-predicate scan and pipeline (src/lib/mio-mongo.js:469-573)

The `where`-clause scan of `exports.find`/`exports.findOne` without
`includeRelated` (stage 6 is embedded separately): keys whose first path
segment names a relation attribute are removed from the primary query and
contribute lookups that narrow the candidate id set. -/

structure RelKeyNested where
  nestedTarget : EntityType
  nestedRel : Relation
  nestedWhere : Value
  deriving Repr, BEq

structure RelKeyPlan where
  relationName : String
  rel : Relation
  target : EntityType
  nested : Option RelKeyNested
  whereRelation : Value
  deriving Repr, BEq

/-- Scan of a single `where` key (the body of the `forEach` at
src/lib/mio-mongo.js:469).  Accessing `whereRelation[nestedName]` when
`unpack` did not produce an object for the relation throws a synchronous
`TypeError` — `unpack` only expands dotted keys with string values. -/
def scanWhereKey (env : Env) (R : EntityType) (whereClause : JsObj)
    (key : String) : Except JsError (Option RelKeyPlan) :=
  let keyArr := splitDots key
  let relationName := keyArr.headD ""
  match (R.attributes.lookup relationName).bind (·.relation) with
  | none => .ok none
  | some rel =>
    match env.lookup rel.target with
    | none => .error (.missingEntity rel.target)
    | some target =>
      let nestedName := if keyArr.length > 2 then keyArr[1]? else none
      let nestedRel := (nestedName.bind (fun n => target.attributes.lookup n)).bind (·.relation)
      let whereRelation0 := jsGet (unpackTop whereClause) relationName
      match nestedRel, nestedName with
      | some nrel, some nname =>
        match env.lookup nrel.target with
        | none => .error (.missingEntity nrel.target)
        | some ntarget =>
          match whereRelation0 with
          | .vUndefined => .error .typeError
          | .vNull => .error .typeError
          | .vObj wr =>
            .ok (some { relationName := relationName,
                        rel := rel,
                        target := target,
                        nested := some { nestedTarget := ntarget,
                                         nestedRel := nrel,
                                         nestedWhere := jsGet wr nname },
                        whereRelation := .vObj (jsDelete wr nname) })
          | v =>
            -- property access and delete on a non-null primitive do not throw
            .ok (some { relationName := relationName,
                        rel := rel,
                        target := target,
                        nested := some { nestedTarget := ntarget,
                                         nestedRel := nrel,
                                         nestedWhere := .vUndefined },
                        whereRelation := v })
      | _, _ =>
        .ok (some { relationName := relationName,
                    rel := rel,
                    target := target,
                    nested := none,
                    whereRelation := whereRelation0 })

/-- Scan all `where` keys, deleting relation keys from the prepared
primary query (src/lib/mio-mongo.js:514-516) and collecting lookup plans
in declaration order. -/
def scanWhere (env : Env) (R : EntityType) (whereClause : JsObj) :
    Except JsError (JsObj × List RelKeyPlan) :=
  whereClause.foldl
    (fun acc (key, _) =>
      match acc with
      | .error e => .error e
      | .ok (mq, plans) =>
        match scanWhereKey env R whereClause key with
        | .error e => .error e
        | .ok none => .ok (mq, plans)
        | .ok (some plan) =>
          .ok (jsDelete (jsDelete mq key) plan.relationName, plans ++ [plan]))
    (.ok (prepareFields Value.vOid R.attributes none [] whereClause, []))

/-- Run the lookups of one relation-key plan: the optional nested
("through") query against the nested target, then the intermediary query
against the relation target, folding candidate ids into the filter object
(src/lib/mio-mongo.js:490-541). -/
def runRelPlan (store : Store) (R : EntityType) (plan : RelKeyPlan)
    (filter : JsObj) : Except JsError (JsObj × List StoreOp) :=
  let nestedStep : Except JsError (Value × List StoreOp) :=
    match plan.nested with
    | none => .ok (plan.whereRelation, [])
    | some n =>
      let docs := storeFind store n.nestedTarget.collection n.nestedWhere
      match plan.whereRelation with
      | .vObj wr =>
        let keyPair :=
          if n.nestedRel.type = RelType.belongsTo then
            (n.nestedRel.foreignKey, n.nestedTarget.primaryKey)
          else
            (plan.target.primaryKey, n.nestedRel.foreignKey)
        match dollarIn docs wr keyPair.1 keyPair.2 with
        | .ok wr' => .ok (.vObj wr', [StoreOp.findQ n.nestedTarget.collection n.nestedWhere])
        | .error e => .error e
      | _ =>
        -- strict-mode property assignment on a primitive throws
        .error .typeError
  match nestedStep with
  | .error e => .error e
  | .ok (wr, trace1) =>
    let docs := storeFind store plan.target.collection wr
    let keyPair :=
      if plan.rel.type = RelType.belongsTo then
        (plan.rel.foreignKey, plan.target.primaryKey)
      else
        (R.primaryKey, plan.rel.foreignKey)
    match dollarIn docs filter keyPair.1 keyPair.2 with
    | .ok filter' => .ok (filter', trace1 ++ [StoreOp.findQ plan.target.collection wr])
    | .error e => .error e

/-- Merge one filter entry into the primary query
(src/lib/mio-mongo.js:550-557): union with any existing `$in` array on the
same key rather than clobbering it. -/
def mergeFilterEntry (mq : JsObj) (key : String) (fv : Value) :
    Except JsError JsObj :=
  let mq1 := if !(jsTruthy (jsGet mq key)) then jsSet mq key (.vObj []) else mq
  match jsGet mq1 key with
  | .vObj fields =>
    let fields1 :=
      if !(jsTruthy (jsGet fields "$in")) then jsSet fields "$in" (.vArr [])
      else fields
    match fv with
    | .vObj fvf =>
      match fvf.lookup "$in" with
      | some (.vArr arr) =>
        match jsGet fields1 "$in" with
        | .vArr xs =>
          .ok (jsSet mq1 key (.vObj (jsSet fields1 "$in" (.vArr (xs ++ arr)))))
        | _ =>
          if arr.isEmpty then .ok (jsSet mq1 key (.vObj fields1))
          else .error .typeError
      | _ => .error .typeError
    | _ => .error .typeError
  | _ => .error .typeError

def mergeFilter (mq : JsObj) (filter : JsObj) : Except JsError JsObj :=
  filter.foldl
    (fun acc (key, fv) =>
      match acc with
      | .error e => .error e
      | .ok m => mergeFilterEntry m key fv)
    (.ok mq)

/-- `exports.find` (src/lib/mio-mongo.js:451-573) with no
`includeRelated`: scan, sequential narrowing lookups, merged primary
query.  Returns the found (domain-translated) documents and the ordered
trace of store queries. -/
def findPipeline (env : Env) (R : EntityType) (store : Store)
    (whereClause : JsObj) : Except JsError (List JsObj × List StoreOp) :=
  match scanWhere env R whereClause with
  | .error e => .error e
  | .ok (mq, plans) =>
    let run : Except JsError (JsObj × List StoreOp) := plans.foldl
      (fun acc plan =>
        match acc with
        | .error e => .error e
        | .ok (filter, trace) =>
          match runRelPlan store R plan filter with
          | .ok (filter', trace') => .ok (filter', trace ++ trace')
          | .error e => .error e)
      (.ok (([] : JsObj), ([] : List StoreOp)))
    match run with
    | .error e => .error e
    | .ok (filter, trace) =>
      match mergeFilter mq filter with
      | .error e => .error e
      | .ok mqFinal =>
        let docs := storeFind store R.collection (.vObj mqFinal)
        .ok (docs.map (prepareResource oidToString R.attributes),
          trace ++ [StoreOp.findQ R.collection (.vObj mqFinal)])

/-- `exports.findOne` (src/lib/mio-mongo.js:132-248) with no
`includeRelated`: identical scan and narrowing, primary `findOne`; a
no-match result is `none`, not an error. -/
def findOnePipeline (env : Env) (R : EntityType) (store : Store)
    (whereClause : JsObj) : Except JsError (Option JsObj × List StoreOp) :=
  match scanWhere env R whereClause with
  | .error e => .error e
  | .ok (mq, plans) =>
    let run : Except JsError (JsObj × List StoreOp) := plans.foldl
      (fun acc plan =>
        match acc with
        | .error e => .error e
        | .ok (filter, trace) =>
          match runRelPlan store R plan filter with
          | .ok (filter', trace') => .ok (filter', trace ++ trace')
          | .error e => .error e)
      (.ok (([] : JsObj), ([] : List StoreOp)))
    match run with
    | .error e => .error e
    | .ok (filter, trace) =>
      match mergeFilter mq filter with
      | .error e => .error e
      | .ok mqFinal =>
        let doc? := (storeFind store R.collection (.vObj mqFinal)).head?
        .ok (doc?.map (prepareResource oidToString R.attributes),
          trace ++ [StoreOp.findOneQ R.collection (.vObj mqFinal)])

/-! ### `includeRelated` resolution (stage 6)

`exports.findOne`'s per-relation follow-up (src/lib/mio-mongo.js:262-321)
and the `belongsTo` arm of `exports.find`'s per-relation follow-up
(src/lib/mio-mongo.js:592-693), with no stage-4 cache (the cache is only
populated when the same relation also appears in the `where` clause). -/

/-- One `includeRelated` operation of `exports.findOne`.  For `belongsTo`
with a falsy foreign key the lookup is skipped and the resource passed on
untouched; otherwise the target is queried (`findOne` for
`belongsTo`/`hasOne`, `find` for `hasMany`) with the transcoded join-key
predicate and the result is assigned to the relation attribute
(`Resource.create(null)` on a miss is modelled as an empty object). -/
def findOneInclude (store : Store) (RelatedResource : EntityType)
    (rel : Relation) (relationName : String) (primaryKeyName : String)
    (resource : Option JsObj) : Option JsObj × List StoreOp :=
  match resource with
  | none => (none, [])
  | some r =>
    match rel.type with
    | .belongsTo =>
      if !(jsTruthy (jsGet r rel.foreignKey)) then (some r, [])
      else
        let q := prepareQueryOrDocument Value.vOid RelatedResource.attributes
          (.vObj [(RelatedResource.primaryKey, jsGet r rel.foreignKey)]) none
        let res := (storeFind store RelatedResource.collection q).head?
        let assigned :=
          match res with
          | some doc => Value.vObj (prepareResource oidToString RelatedResource.attributes doc)
          | none => Value.vObj []
        (some (jsSet r relationName assigned),
          [StoreOp.findOneQ RelatedResource.collection q])
    | .hasOne =>
      let q := prepareQueryOrDocument Value.vOid RelatedResource.attributes
        (.vObj [(rel.foreignKey, jsGet r primaryKeyName)]) none
      let res := (storeFind store RelatedResource.collection q).head?
      let assigned :=
        match res with
        | some doc => Value.vObj (prepareResource oidToString RelatedResource.attributes doc)
        | none => Value.vObj []
      (some (jsSet r relationName assigned),
        [StoreOp.findOneQ RelatedResource.collection q])
    | .hasMany =>
      let q := prepareQueryOrDocument Value.vOid RelatedResource.attributes
        (.vObj [(rel.foreignKey, jsGet r primaryKeyName)]) none
      let res := storeFind store RelatedResource.collection q
      (some (jsSet r relationName
          (.vArr (res.map (fun doc =>
            Value.vObj (prepareResource oidToString RelatedResource.attributes doc))))),
        [StoreOp.findQ RelatedResource.collection q])

/-- The `belongsTo` arm of `exports.find`'s `includeRelated` operation:
every primary entity's foreign-key value — including `null`/`undefined`,
there is no skip on this path — is pushed into one `$in` filter on the
target's primary key; one `find` is issued; each returned document is
assigned to every primary entity whose foreign key strictly equals the
document's primary key. -/
def findIncludeBelongsTo (store : Store) (RelatedResource : EntityType)
    (rel : Relation) (relationName : String) (resources : List JsObj) :
    Option (List JsObj) × List StoreOp :=
  if resources.isEmpty then (none, [])
  else
    let inVals := resources.map (fun r => jsGet r rel.foreignKey)
    let q := prepareQueryOrDocument Value.vOid RelatedResource.attributes
      (.vObj [(RelatedResource.primaryKey, .vObj [("$in", .vArr inVals)])]) none
    let results := storeFind store RelatedResource.collection q
    let stitched := resources.map (fun r =>
      results.foldl (fun racc result =>
        let related := prepareResource oidToString RelatedResource.attributes result
        if jsStrictEq (jsGet racc rel.foreignKey) (jsGet related RelatedResource.primaryKey)
        then jsSet racc relationName (.vObj related)
        else racc) r)
    (some stitched, [StoreOp.findQ RelatedResource.collection q])

/-! ### Per-relation pagination windows (src/lib/mio-mongo.js:663-689,
819-832, 418-429) -/

/-- `Number` coercion to an integer index (`undefined` behaves as 0 in
`Array#slice`). -/
def jsToInteger (v : Value) : Int :=
  match jsNumber v with
  | .vNum n => n
  | _ => 0

/-- JS `Array.prototype.slice(begin, end)`. -/
def jsSlice (l : List Value) (start endIdx : Int) : List Value :=
  (l.take
      (if endIdx < 0 then max ((l.length : Int) + endIdx) 0
       else min endIdx (l.length : Int)).toNat).drop
    (if start < 0 then max ((l.length : Int) + start) 0
     else min start (l.length : Int)).toNat

/-- A mio collection: items plus the optional `total` property set by the
pagination step. -/
structure MioCollection where
  items : List Value
  total : Option Int := none
  deriving Repr, BEq

/-- The `hasMany` pagination step of `exports.find`'s `includeRelated`
(src/lib/mio-mongo.js:685-688): when `size` is truthy, set `total` to the
stitched length, then reset the collection to
`collection.slice(from, size)`. -/
def applyHasManyWindow (stitched : List Value) (fromVal sizeVal : Value) :
    MioCollection :=
  if jsTruthy sizeVal then
    { items := jsSlice stitched (jsToInteger fromVal) (jsToInteger sizeVal),
      total := some (stitched.length : Int) }
  else
    { items := stitched, total := none }

/-- The nested-through pagination step (src/lib/mio-mongo.js:826-830 and
425-427): `through[attr].reset(through[attr].slice(from, size))`, same
slice boundary, no `total`. -/
def nestedThroughWindow (coll : List Value) (fromVal sizeVal : Value) :
    List Value :=
  if jsTruthy sizeVal then jsSlice coll (jsToInteger fromVal) (jsToInteger sizeVal)
  else coll

/-! ### Mutation operations -/

/-- A default is truthy when it is a function, or a static value that is
JS-truthy (`if (attributes[key].default)`). -/
def defaultSpecTruthy : DefaultSpec → Bool
  | .func _ => true
  | .static v => jsTruthy v

/-- The JS object value of an attribute descriptor, as it would be
enumerated if persisted (a function-valued field is an opaque leaf). -/
def attrToValue (a : Attr) : Value :=
  .vObj
    ((match a.aliasName with
      | some s => [("alias", Value.vStr s)]
      | none => []) ++
     (if a.primary then [("primary", Value.vBool true)] else []) ++
     (if a.objectId then [("objectId", Value.vBool true)] else []) ++
     (if a.transient then [("transient", Value.vBool true)] else []) ++
     (match a.defaultSpec with
      | some (.static v) => [("default", v)]
      | some (.func _) => [("default", Value.vStr "[function]")]
      | none => []))

/-- The representation built by `exports.create`
(src/lib/mio-mongo.js:858-871): declared attributes present in the body
are copied; for an omitted attribute with a truthy default, a function
default is invoked — but a static default assigns the whole attribute
descriptor (`representation[key] = attributes[key]`, the literal source
line). -/
def createRepresentation (attributes : Attrs) (body : JsObj) : JsObj :=
  attributes.foldl
    (fun representation (key, attr) =>
      match jsGet body key with
      | .vUndefined =>
        match attr.defaultSpec with
        | some d =>
          if defaultSpecTruthy d then
            match d with
            | .func v => jsSet representation key v
            | .static _ => jsSet representation key (attrToValue attr)
          else representation
        | none => representation
      | v => jsSet representation key v)
    []

/-- The document `exports.create` passes to `insert`
(src/lib/mio-mongo.js:873-875). -/
def createInsertDoc (attributes : Attrs) (body : JsObj) : JsObj :=
  prepareFields Value.vOid attributes none [] (createRepresentation attributes body)

/-- A `findAndModify` invocation as issued by `exports.update`. -/
structure FindAndModifyCall where
  query : JsObj
  updateDoc : Value
  options : JsObj
  deriving Repr, BEq

/-- `exports.update` (src/lib/mio-mongo.js:898-921): transcode the
changes, delete the primary key's storage field from the `$set` document,
and issue an atomic `findAndModify` with `{new: true}`. -/
def updateCall (attributes : Attrs) (primaryKey : String)
    (whereClause changes : JsObj) : FindAndModifyCall :=
  let doc := prepareFields Value.vOid attributes none [] changes
  let storageKey :=
    ((attributes.lookup primaryKey).bind (·.aliasName)).getD primaryKey
  { query := prepareFields Value.vOid attributes none [] whereClause,
    updateDoc := .vObj [("$set", .vObj (jsDelete doc storageKey))],
    options := [("new", .vBool true)] }

/-! ### Store access gateway (src/lib/mio-mongo.js:1081-1107)

`mongoExec` wraps every driver call: a cached `settings.db` is reused (and
`settings.dbCollection` resolved at most once); otherwise one connect is
issued and both handles are cached on the settings object.  The stub
driver's connect always succeeds, as in the repository's tests. -/

structure GatewaySettings where
  db : Option Nat := none
  dbCollection : Option Nat := none
  deriving Repr, BEq, DecidableEq

/-- One `mongoExec` call on a settings object: returns the updated
settings and whether a `connect` (resp. a collection resolution) was
issued. -/
def mongoExecStep (s : GatewaySettings) (fresh : Nat) :
    GatewaySettings × Bool × Bool :=
  match s.db with
  | some _ =>
    match s.dbCollection with
    | some _ => (s, false, false)
    | none => ({ s with dbCollection := some fresh }, false, true)
  | none =>
    ({ db := some fresh, dbCollection := some fresh }, true, true)

/-- `n` sequential operations against one shared settings object,
counting connects and collection resolutions. -/
def mongoExecRun : GatewaySettings → Nat → GatewaySettings × Nat × Nat
  | s, 0 => (s, 0, 0)
  | s, n + 1 =>
    let step := mongoExecStep s 0
    let rest := mongoExecRun step.1 n
    (rest.1, (if step.2.1 then 1 else 0) + rest.2.1,
      (if step.2.2 then 1 else 0) + rest.2.2)

/-! ### Concrete fixtures used by the claims -/

/-- The target entity of the belongsTo-resolution claim. -/
def entAuthor : EntityType :=
  { name := "author",
    collection := "authors",
    primaryKey := "id",
    attributes := [("id", { primary := true })] }

/-- The belongsTo relation of the belongsTo-resolution claim. -/
def relAuthor : Relation :=
  { type := RelType.belongsTo,
    target := "author",
    foreignKey := "authorId" }

/-- Deepest entity `U` of the through-predicate configuration. -/
def entU : EntityType :=
  { name := "U",
    collection := "ucoll",
    primaryKey := "uid",
    attributes := [("uid", { primary := true }), ("bfk", {}), ("f", {})] }

/-- Intermediate entity `T`, whose attribute `b` is a relation to `U`. -/
def entT (rt2 : RelType) : EntityType :=
  { name := "T",
    collection := "tcoll",
    primaryKey := "tid",
    attributes := [("tid", { primary := true }), ("afk", {}),
      ("b", { relation := some { type := rt2, target := "U", foreignKey := "bfk" } })] }

/-- Primary entity `R`, whose attribute `a` is a relation to `T`. -/
def entR (rt1 : RelType) : EntityType :=
  { name := "R",
    collection := "rcoll",
    primaryKey := "rid",
    attributes := [("rid", { primary := true }),
      ("a", { relation := some { type := rt1, target := "T", foreignKey := "afk" } })] }

def envC1 (rt1 rt2 : RelType) : Env :=
  [("R", entR rt1), ("T", entT rt2), ("U", entU)]

/-- Join key on `T` for the nested `$in` fold (src/lib/mio-mongo.js:503-507):
`belongsTo` keys by the nested foreign key, otherwise by `T`'s primary key. -/
def tJoinKey : RelType → String
  | .belongsTo => "bfk"
  | _ => "tid"

/-- Document key projected from `U`'s results. -/
def uDocKey : RelType → String
  | .belongsTo => "uid"
  | _ => "bfk"

/-- Join key on the primary filter (src/lib/mio-mongo.js:531-535). -/
def rJoinKey : RelType → String
  | .belongsTo => "afk"
  | _ => "rid"

/-- Document key projected from `T`'s results. -/
def tDocKey : RelType → String
  | .belongsTo => "tid"
  | _ => "afk"

/-- Stage-3 query against `U`: the deepest predicate, passed raw. -/
def deepQuery (x : String) : Value :=
  .vObj [("f", Value.vStr x)]

/-- Stage-4 query against `T`: the join key filtered by `U`'s ids. -/
def midQuery (rt2 : RelType) (x : String) (store : Store) : Value :=
  .vObj [(tJoinKey rt2, .vObj [("$in",
    .vArr ((storeFind store "ucoll" (deepQuery x)).map
      (fun d => jsGet d (uDocKey rt2))))])]

/-- Stage-5 primary query: the join key filtered by `T`'s ids. -/
def primQuery (rt1 rt2 : RelType) (x : String) (store : Store) : Value :=
  .vObj [(rJoinKey rt1, .vObj [("$in",
    .vArr ((storeFind store "tcoll" (midQuery rt2 x store)).map
      (fun d => jsGet d (tDocKey rt1))))])]

/-! ## Helper lemmas -/

theorem lookup_mem {α β : Type} [BEq α] [LawfulBEq α] {l : List (α × β)}
    {k : α} {b : β} (h : l.lookup k = some b) : (k, b) ∈ l := by
  induction l with
  | nil => simp [List.lookup] at h
  | cons p rest ih =>
    obtain ⟨a, v⟩ := p
    rw [List.lookup] at h
    cases hka : k == a with
    | true =>
      rw [hka] at h
      simp only [Option.some.injEq] at h
      have hk : k = a := eq_of_beq hka
      subst hk
      subst h
      exact List.mem_cons_self _ _
    | false =>
      rw [hka] at h
      exact List.mem_cons_of_mem _ (ih h)

theorem mem_jsSet {o : JsObj} {k j : String} {v w : Value}
    (h : (j, w) ∈ jsSet o k v) : (j, w) ∈ o ∨ j = k := by
  unfold jsSet at h
  split at h
  · rcases List.mem_append.mp h with h | h
    · exact Or.inl h
    · simp at h
      exact Or.inr h.1
  · rcases List.mem_map.mp h with ⟨p, hp, he⟩
    by_cases hc : p.1 = k
    · rw [if_pos hc] at he
      injection he with h1 h2
      exact Or.inr h1.symm
    · rw [if_neg hc] at he
      subst he
      exact Or.inl hp

theorem mongoExecRun_cached (d c : Nat) (n : Nat) :
    mongoExecRun { db := some d, dbCollection := some c } n =
      ({ db := some d, dbCollection := some c }, 0, 0) := by
  induction n with
  | zero => rfl
  | succ n ih => simp [mongoExecRun, mongoExecStep, ih]

/-- An `$in` filter over an empty id set matches no document. -/
theorem storeFind_in_nil (store : Store) (coll : String) (k : String) :
    storeFind store coll (.vObj [(k, .vObj [("$in", .vArr [])])]) = [] := by
  unfold storeFind
  rw [List.filter_eq_nil_iff]
  intro d _
  simp [docMatches, condMatches, List.lookup]

theorem jsSlice_eq_take_drop (l : List Value) (s e : Int)
    (hs : 0 ≤ s) (he : 0 ≤ e) :
    jsSlice l s e = (l.take e.toNat).drop s.toNat := by
  unfold jsSlice
  rw [if_neg (by omega), if_neg (by omega)]
  have h1 : l.take (min e (l.length : Int)).toNat = l.take e.toNat := by
    rcases le_or_lt e (l.length : Int) with h | h
    · congr 1
      omega
    · have h2 : (min e (l.length : Int)).toNat = l.length := by omega
      rw [h2, List.take_length, List.take_of_length_le (by omega)]
  rw [h1]
  rcases le_or_lt s (l.length : Int) with h | h
  · congr 1
    omega
  · have hlen : (l.take e.toNat).length ≤ l.length := by
      simp [List.length_take]
    rw [List.drop_eq_nil_of_le (by omega), List.drop_eq_nil_of_le (by omega)]

/-! ## Claims -/

/-- C7: for every query descriptor with a sort mapping, the built storage
sort maps the literal string `"desc"` to `-1`, every other string (such as
`"asc"`) to `1`, and passes numeric sort values straight through; in
particular `{name: 'desc', createdAt: 'asc'}` yields
`{name: -1, createdAt: 1}`. -/
theorem sort_transcoding :
    (∀ (q : QueryState) (l : JsObj), q.sort = some l →
      (buildQueryOptions q).sort = some (l.map sortEntry)) ∧
    (∀ k : String, sortEntry (k, Value.vStr "desc") = (k, Value.vNum (-1))) ∧
    (∀ (k s : String), s ≠ "desc" → sortEntry (k, Value.vStr s) = (k, Value.vNum 1)) ∧
    (∀ (k : String) (n : Int), sortEntry (k, Value.vNum n) = (k, Value.vNum n)) ∧
    (buildQueryOptions
        { sort := some [("name", Value.vStr "desc"), ("createdAt", Value.vStr "asc")] }).sort
      = some [("name", Value.vNum (-1)), ("createdAt", Value.vNum 1)] := by
  refine ⟨?_, ?_, ?_, ?_, ?_⟩
  · intro q l h
    unfold buildQueryOptions
    rw [h]
    dsimp only
    split <;> split <;> rfl
  · intro k
    rfl
  · intro k s h
    simp [sortEntry, h]
  · intro k n
    rfl
  · rfl

theorem sort_transcoding_witness :
    (buildQueryOptions { sort := some [("x", Value.vStr "up")] }).sort
        = some [("x", Value.vNum 1)] ∧
    sortEntry ("y", Value.vStr "desc") = ("y", Value.vNum (-1)) :=
  ⟨sort_transcoding.1 { sort := some [("x", Value.vStr "up")] }
      [("x", Value.vStr "up")] rfl,
   sort_transcoding.2.1 "y"⟩

/-- C5: once `settings.db` is cached by the first successful connect,
every later operation on the shared settings object reuses the connection
and the resolved collection handle with no further connect; in particular
any run of `n ≥ 1` sequential operations over one fresh shared settings
object issues exactly one connect and one collection resolution. -/
theorem connection_sharing :
    (∀ n : Nat, 1 ≤ n →
      (mongoExecRun { db := none, dbCollection := none } n).2 = (1, 1)) ∧
    (∀ (s : GatewaySettings) (d : Nat) (n : Nat), s.db = some d →
      (mongoExecRun s n).2.1 = 0 ∧ (mongoExecRun s n).1.db = some d) := by
  constructor
  · intro n hn
    obtain ⟨m, rfl⟩ : ∃ m, n = m + 1 := ⟨n - 1, by omega⟩
    simp [mongoExecRun, mongoExecStep, mongoExecRun_cached]
  · intro s d n hs
    obtain ⟨db, dc⟩ := s
    simp only [GatewaySettings.db] at hs
    subst hs
    cases dc with
    | none =>
      cases n with
      | zero => exact ⟨rfl, rfl⟩
      | succ m =>
        simp [mongoExecRun, mongoExecStep, mongoExecRun_cached]
    | some c =>
      simp [mongoExecRun_cached]

theorem connection_sharing_witness :
    (mongoExecRun { db := none, dbCollection := none } 2).2 = (1, 1) ∧
    (mongoExecRun { db := some 5, dbCollection := some 7 } 3).2.1 = 0 :=
  ⟨connection_sharing.1 2 (by omega),
   (connection_sharing.2 { db := some 5, dbCollection := some 7 } 5 3 rfl).1⟩

/-- C10: when a hasMany relation is resolved with a truthy `size`, the
stitched collection's `total` is set to the pre-slice stitched length and
the collection is reset to the in-memory slice from index `from`
(inclusive) to index `size` (exclusive) — `size` is an exclusive end
index, not a window length, so at most `max(0, size - from)` related
elements remain; the nested-through slicing uses the same boundary. -/
theorem hasmany_window_semantics (stitched : List Value) (fromVal sizeVal : Value)
    (hs : jsTruthy sizeVal = true)
    (hf : 0 ≤ jsToInteger fromVal) (hz : 0 ≤ jsToInteger sizeVal) :
    (applyHasManyWindow stitched fromVal sizeVal).total = some (stitched.length : Int) ∧
    (applyHasManyWindow stitched fromVal sizeVal).items =
      (stitched.take (jsToInteger sizeVal).toNat).drop (jsToInteger fromVal).toNat ∧
    ((applyHasManyWindow stitched fromVal sizeVal).items).length ≤
      (jsToInteger sizeVal).toNat - (jsToInteger fromVal).toNat ∧
    nestedThroughWindow stitched fromVal sizeVal =
      (stitched.take (jsToInteger sizeVal).toNat).drop (jsToInteger fromVal).toNat := by
  unfold applyHasManyWindow nestedThroughWindow
  rw [if_pos hs, if_pos hs]
  refine ⟨rfl, jsSlice_eq_take_drop _ _ _ hf hz, ?_,
    jsSlice_eq_take_drop _ _ _ hf hz⟩
  show (jsSlice stitched _ _).length ≤ _
  rw [jsSlice_eq_take_drop _ _ _ hf hz]
  simp only [List.length_drop, List.length_take]
  omega

theorem hasmany_window_semantics_witness :
    (applyHasManyWindow [Value.vNum 10, Value.vNum 20, Value.vNum 30]
        (Value.vNum 1) (Value.vNum 2)).total = some ((3 : Nat) : Int) ∧
    (applyHasManyWindow [Value.vNum 10, Value.vNum 20, Value.vNum 30]
        (Value.vNum 1) (Value.vNum 2)).items =
      (([Value.vNum 10, Value.vNum 20, Value.vNum 30].take
          (jsToInteger (Value.vNum 2)).toNat).drop (jsToInteger (Value.vNum 1)).toNat) ∧
    ((applyHasManyWindow [Value.vNum 10, Value.vNum 20, Value.vNum 30]
        (Value.vNum 1) (Value.vNum 2)).items).length ≤
      (jsToInteger (Value.vNum 2)).toNat - (jsToInteger (Value.vNum 1)).toNat ∧
    nestedThroughWindow [Value.vNum 10, Value.vNum 20, Value.vNum 30]
        (Value.vNum 1) (Value.vNum 2) =
      (([Value.vNum 10, Value.vNum 20, Value.vNum 30].take
          (jsToInteger (Value.vNum 2)).toNat).drop (jsToInteger (Value.vNum 1)).toNat) :=
  hasmany_window_semantics [Value.vNum 10, Value.vNum 20, Value.vNum 30]
    (Value.vNum 1) (Value.vNum 2) rfl (by decide) (by decide)

/-- C9: a null value on an identifier-encoded attribute is passed through
both translation directions unchanged, never reaching the identifier
codec — witnessed by the result being independent of the codec functions
`enc` and `toStr`. -/
theorem null_passthrough (enc : String → Value) (toStr : Value → String)
    (name : String) (a : Attr) (hoid : a.objectId = true)
    (hrel : a.relation = none) (htr : a.transient = false)
    (hal : ∀ al, a.aliasName = some al → al ≠ name) :
    prepareFields enc [(name, a)] none [] [(name, Value.vNull)] =
      [(a.aliasName.getD name, Value.vNull)] ∧
    prepareResource toStr [(name, a)] [(a.aliasName.getD name, Value.vNull)] =
      [(name, Value.vNull)] := by
  constructor
  · simp [prepareFields, List.lookup, hrel, htr, isPlainContainer, jsSet]
  · cases h : a.aliasName with
    | none =>
      simp [prepareResource, prepareResourceStep, h, jsGet, List.lookup,
        isObjectNotNull]
    | some al =>
      have hne : al ≠ name := hal al h
      have hb : (name == al) = false := by
        simp only [beq_eq_false_iff_ne, ne_eq]
        exact fun hc => hne hc.symm
      simp only [prepareResource, prepareResourceStep, h, jsGet, jsSet, jsDelete,
        List.lookup, List.foldl, isObjectNotNull, isDefined, Option.getD,
        beq_self_eq_true, hb]
      simp [Ne.symm hne]

theorem null_passthrough_witness :
    prepareFields Value.vOid [("id", { aliasName := some "_id", objectId := true })]
        none [] [("id", Value.vNull)] = [("_id", Value.vNull)] ∧
    prepareResource oidToString [("id", { aliasName := some "_id", objectId := true })]
        [("_id", Value.vNull)] = [("id", Value.vNull)] :=
  null_passthrough Value.vOid oidToString "id"
    { aliasName := some "_id", objectId := true } rfl rfl rfl
    (by intro al h; injection h with h; subst h; decide)

/-- C2 (code bug): `prepareQueryOrDocument` constructs a native id from
EVERY string on an identifier attribute — there is no `ObjectID.isValid`
guard — so a non-24-hex string such as "abc" is not left unchanged (with
the real driver the constructor throws for it). -/
theorem objectid_cast_eval :
    prepareFields Value.vOid [("id", { objectId := true })] none []
        [("id", Value.vStr "abc")] = [("id", Value.vOid "abc")] ∧
    Value.vOid "abc" ≠ Value.vStr "abc" :=
  ⟨rfl, fun h => Value.noConfusion h⟩

/-- C4 (code bug): for an omitted attribute with a truthy static default,
`exports.create` inserts the whole attribute descriptor
(`representation[key] = attributes[key]`), not the default value. -/
theorem create_static_default_eval :
    createInsertDoc [("status", { defaultSpec := some (.static (Value.vStr "new")) })]
        [] = [("status", Value.vObj [("default", Value.vStr "new")])] ∧
    Value.vObj [("default", Value.vStr "new")] ≠ Value.vStr "new" :=
  ⟨rfl, fun h => Value.noConfusion h⟩

/-- Every key of a `prepareFields` output comes from the accumulator or is
the storage key (alias or name) of some input key. -/
theorem prepareFields_key_mem (oidOf : String → Value) (attributes : Attrs)
    (pa : Option Attr) :
    ∀ (fields : List (String × Value)) (acc : JsObj) (j : String) (w : Value),
      (j, w) ∈ prepareFields oidOf attributes pa acc fields →
      (j, w) ∈ acc ∨
        ∃ k, j = ((attributes.lookup k).bind (·.aliasName)).getD k ∧
          ∃ v, (k, v) ∈ fields := by
  intro fields
  induction fields with
  | nil =>
    intro acc j w h
    exact Or.inl h
  | cons p rest ih =>
    intro acc j w h
    obtain ⟨key, val⟩ := p
    simp only [prepareFields] at h
    rcases ih _ j w h with h' | ⟨k, hk, v, hv⟩
    · split at h'
      · split at h'
        · rcases mem_jsSet h' with h'' | rfl
          · exact Or.inl h''
          · exact Or.inr ⟨key, rfl, val, List.mem_cons_self _ _⟩
        · rcases mem_jsSet h' with h'' | rfl
          · exact Or.inl h''
          · exact Or.inr ⟨key, rfl, val, List.mem_cons_self _ _⟩
      · exact Or.inl h'
    · exact Or.inr ⟨k, hk, v, List.mem_cons_of_mem _ hv⟩

/-- C6: the `$set` document of `exports.update` never contains the
primary-key field, neither under its storage alias nor under its canonical
name (assuming no other attribute's storage key collides with the
primary-key name); the call sets `{new: true}`; every other transcoded
change field is kept in `$set` unaltered. -/
theorem update_preserves_identity (attributes : Attrs) (primaryKey : String)
    (pkAttr : Attr) (whereClause changes : JsObj)
    (hpk : attributes.lookup primaryKey = some pkAttr)
    (hcol : ∀ k a, (k, a) ∈ attributes → k ≠ primaryKey →
      (a.aliasName.getD k) ≠ primaryKey) :
    (updateCall attributes primaryKey whereClause changes).updateDoc =
      .vObj [("$set", .vObj (jsDelete
        (prepareFields Value.vOid attributes none [] changes)
        (pkAttr.aliasName.getD primaryKey)))] ∧
    (updateCall attributes primaryKey whereClause changes).options =
      [("new", Value.vBool true)] ∧
    (∀ j w, (j, w) ∈ jsDelete
        (prepareFields Value.vOid attributes none [] changes)
        (pkAttr.aliasName.getD primaryKey) →
      j ≠ pkAttr.aliasName.getD primaryKey ∧ j ≠ primaryKey) ∧
    (∀ j w, (j, w) ∈ prepareFields Value.vOid attributes none [] changes →
      j ≠ pkAttr.aliasName.getD primaryKey →
      (j, w) ∈ jsDelete (prepareFields Value.vOid attributes none [] changes)
        (pkAttr.aliasName.getD primaryKey)) := by
  refine ⟨?_, rfl, ?_, ?_⟩
  · unfold updateCall
    rw [hpk]
    rfl
  · intro j w hmem
    have hj := List.mem_filter.mp hmem
    have hjs : j ≠ pkAttr.aliasName.getD primaryKey := by
      have := hj.2
      simpa using this
    refine ⟨hjs, ?_⟩
    rcases prepareFields_key_mem Value.vOid attributes none changes [] j w hj.1
      with h0 | ⟨k, hk, v, _⟩
    · exact absurd h0 (List.not_mem_nil _)
    · by_cases hkp : k = primaryKey
      · subst hkp
        rw [hpk] at hk
        exact absurd hk hjs
      · cases hlk : attributes.lookup k with
        | none =>
          rw [hlk] at hk
          subst hk
          exact hkp
        | some b =>
          rw [hlk] at hk
          exact hk ▸ hcol k b (lookup_mem hlk) hkp
  · intro j w hmem hne
    exact List.mem_filter.mpr ⟨hmem, by simpa using hne⟩

theorem update_preserves_identity_witness :
    (updateCall [("id", { aliasName := some "_id", primary := true }), ("active", ({} : Attr))]
        "id" [("id", Value.vStr "x")]
        [("id", Value.vStr "x"), ("active", Value.vBool true)]).options =
      [("new", Value.vBool true)] :=
  (update_preserves_identity
    [("id", { aliasName := some "_id", primary := true }), ("active", ({} : Attr))]
    "id" { aliasName := some "_id", primary := true }
    [("id", Value.vStr "x")] [("id", Value.vStr "x"), ("active", Value.vBool true)]
    rfl
    (by
      intro k a h hk
      simp only [List.mem_cons, List.not_mem_nil, or_false] at h
      rcases h with h | h
      · injection h with h1 h2
        exact absurd h1 hk
      · injection h with h1 h2
        subst h1
        subst h2
        decide)).2.1

/-! ## Alias round-trip (C8) -/

theorem lookup_append_right {β : Type} (pre rest : List (String × β)) (k : String)
    (h : ∀ p ∈ pre, p.1 ≠ k) :
    (pre ++ rest).lookup k = rest.lookup k := by
  induction pre with
  | nil => rfl
  | cons p pre ih =>
    obtain ⟨a, b⟩ := p
    rw [List.cons_append, List.lookup]
    have hb : (k == a) = false := by
      simp only [beq_eq_false_iff_ne, ne_eq]
      exact fun he => h (a, b) (List.mem_cons_self _ _) he.symm
    rw [hb]
    exact ih (fun q hq => h q (List.mem_cons_of_mem _ hq))

theorem lookup_singleton_ne {β : Type} (k a : String) (b : β) (h : k ≠ a) :
    List.lookup k [(a, b)] = none := by
  rw [List.lookup]
  have hb : (k == a) = false := by
    simp only [beq_eq_false_iff_ne, ne_eq]
    exact h
  rw [hb]
  rfl

theorem foldl_prs_nop (toStr : Value → String) (doc : JsObj) :
    ∀ l : Attrs, (∀ e ∈ l, prepareResourceStep toStr doc e = doc) →
      l.foldl (prepareResourceStep toStr) doc = doc := by
  intro l
  induction l with
  | nil => intro _; rfl
  | cons e l ih =>
    intro h
    rw [List.foldl_cons, h e (List.mem_cons_self _ _)]
    exact ih (fun e' he' => h e' (List.mem_cons_of_mem _ he'))

/-- A schema attribute whose storage key is absent from the document
leaves the document untouched. -/
theorem prs_step_nop (toStr : Value → String) (doc : JsObj) (e : String × Attr)
    (hsk : doc.lookup (e.2.aliasName.getD e.1) = none) :
    prepareResourceStep toStr doc e = doc := by
  obtain ⟨k, b⟩ := e
  unfold prepareResourceStep
  cases hal : b.aliasName with
  | none =>
    rw [hal] at hsk
    simp only [Option.getD_none] at hsk
    simp only [hal, Option.getD_none]
    simp [jsGet, hsk, isObjectNotNull]
  | some al =>
    rw [hal] at hsk
    simp only [Option.getD_some] at hsk
    simp only [hal, Option.getD_some]
    simp [jsGet, hsk, isObjectNotNull, isDefined]

/-- The aliased attribute's own step moves the stored value from `_a`
back to `a`. -/
theorem prs_step_a (toStr : Value → String) (v : Value) (aAttr : Attr)
    (hal : aAttr.aliasName = some "_a") (hoid : aAttr.objectId = false)
    (hv : isDefined v = true) :
    prepareResourceStep toStr [("_a", v)] ("a", aAttr) = [("a", v)] := by
  unfold prepareResourceStep
  simp [hal, hoid, hv, jsGet, jsSet, jsDelete, List.lookup]

/-- `toStorage` of `{a: v}` under the aliased schema is `{_a: v}` for a
non-container value. -/
theorem prepare_single_a (pre post : Attrs) (aAttr : Attr) (v : Value)
    (hnpre : ∀ p ∈ pre, p.1 ≠ "a")
    (hal : aAttr.aliasName = some "_a") (hrel : aAttr.relation = none)
    (htr : aAttr.transient = false) (hoid : aAttr.objectId = false)
    (hcon : isPlainContainer v = false) :
    prepareFields Value.vOid (pre ++ ("a", aAttr) :: post) none []
      [("a", v)] = [("_a", v)] := by
  have hlk : (pre ++ ("a", aAttr) :: post).lookup "a" = some aAttr := by
    rw [lookup_append_right pre _ "a" hnpre, List.lookup]
    rw [show ("a" == "a") = true from rfl]
  simp [prepareFields, hlk, hal, hrel, htr, hoid, hcon, jsSet]

/-- C8 (amended): for a schema containing attribute `a` aliased to `_a`
(non-identifier, non-relation, non-transient, and no other attribute's
storage key colliding with `a` or `_a`), translating `{a: v}` to storage
form and back yields `{a: v}` again for every defined scalar
(non-object, non-array) value `v`.  Nested objects and arrays do not
round-trip: `toStorage` rewrites their inner keys that match schema
attributes while `fromStorage` only operates on top-level keys. -/
theorem alias_roundtrip_amended (pre post : Attrs) (aAttr : Attr) (v : Value)
    (hal : aAttr.aliasName = some "_a") (hrel : aAttr.relation = none)
    (htr : aAttr.transient = false) (hoid : aAttr.objectId = false)
    (hcon : isPlainContainer v = false) (hv : isDefined v = true)
    (hpre : ∀ p ∈ pre, p.1 ≠ "a" ∧ (p.2.aliasName.getD p.1) ≠ "_a")
    (hpost : ∀ p ∈ post, (p.2.aliasName.getD p.1) ≠ "a") :
    prepareResource oidToString (pre ++ ("a", aAttr) :: post)
      (prepareFields Value.vOid (pre ++ ("a", aAttr) :: post) none [] [("a", v)]) =
    [("a", v)] := by
  rw [prepare_single_a pre post aAttr v (fun p hp => (hpre p hp).1) hal hrel htr
    hoid hcon]
  unfold prepareResource
  rw [List.foldl_append]
  rw [foldl_prs_nop _ _ pre (fun e he =>
    prs_step_nop _ _ e (lookup_singleton_ne _ _ _ (hpre e he).2))]
  rw [List.foldl_cons, prs_step_a _ v aAttr hal hoid hv]
  exact foldl_prs_nop _ _ post (fun e he =>
    prs_step_nop _ _ e (lookup_singleton_ne _ _ _ (hpost e he)))

theorem alias_roundtrip_amended_witness :
    prepareResource oidToString
      ([("x", ({} : Attr))] ++ ("a", { aliasName := some "_a" }) :: [("y", ({} : Attr))])
      (prepareFields Value.vOid
        ([("x", ({} : Attr))] ++ ("a", { aliasName := some "_a" }) :: [("y", ({} : Attr))])
        none [] [("a", Value.vStr "q")]) =
    [("a", Value.vStr "q")] :=
  alias_roundtrip_amended [("x", ({} : Attr))] [("y", ({} : Attr))]
    { aliasName := some "_a" } (Value.vStr "q") rfl rfl rfl rfl rfl rfl
    (by
      intro p hp
      simp only [List.mem_singleton] at hp
      subst hp
      exact ⟨by decide, by decide⟩)
    (by
      intro p hp
      simp only [List.mem_singleton] at hp
      subst hp
      decide)

/-- C8 counterexample: with the single aliased attribute `a → _a` and the
nested object value `{a: 1}`, the round trip returns `{a: {_a: 1}}` —
`toStorage` renamed the nested key — not `{a: {a: 1}}`. -/
theorem alias_roundtrip_counterexample :
    prepareResource oidToString [("a", { aliasName := some "_a" })]
        (prepareFields Value.vOid [("a", { aliasName := some "_a" })] none []
          [("a", Value.vObj [("a", Value.vNum 1)])]) =
      [("a", Value.vObj [("_a", Value.vNum 1)])] ∧
    Value.vObj [("_a", Value.vNum 1)] ≠ Value.vObj [("a", Value.vNum 1)] := by
  refine ⟨rfl, ?_⟩
  simp

/-! ## belongsTo resolution (C3) -/

/-- C3 (amended): in a single-resource fetch (`findOne`), a `belongsTo`
follow-up is skipped — no query at all — whenever the foreign-key value is
falsy (null, absent, `0`, `''`, `false`), and the resource is passed on
untouched; when the foreign key is truthy, exactly one `findOne` follow-up
is issued, filtered by the target's primary key equal to the foreign-key
value, and a returned document is assigned to the relation attribute.  In
a collection fetch (`find`) there is no skip: every entity's foreign-key
value — null included — is pushed into the single follow-up query's `$in`
filter on the target's primary key. -/
theorem belongsto_resolution_amended :
    (∀ (store : Store) (Rel : EntityType) (rel : Relation)
        (relationName pkName : String) (r : JsObj),
      rel.type = RelType.belongsTo →
      jsTruthy (jsGet r rel.foreignKey) = false →
      findOneInclude store Rel rel relationName pkName (some r) = (some r, [])) ∧
    (∀ (store : Store) (Rel : EntityType) (rel : Relation)
        (relationName pkName : String) (r : JsObj),
      rel.type = RelType.belongsTo →
      jsTruthy (jsGet r rel.foreignKey) = true →
      (findOneInclude store Rel rel relationName pkName (some r)).2 =
        [StoreOp.findOneQ Rel.collection
          (prepareQueryOrDocument Value.vOid Rel.attributes
            (.vObj [(Rel.primaryKey, jsGet r rel.foreignKey)]) none)] ∧
      ∀ doc, (storeFind store Rel.collection
            (prepareQueryOrDocument Value.vOid Rel.attributes
              (.vObj [(Rel.primaryKey, jsGet r rel.foreignKey)]) none)).head?
          = some doc →
        (findOneInclude store Rel rel relationName pkName (some r)).1 =
          some (jsSet r relationName
            (.vObj (prepareResource oidToString Rel.attributes doc)))) ∧
    (∀ (store : Store) (Rel : EntityType) (rel : Relation)
        (relationName : String) (rs : List JsObj),
      rel.type = RelType.belongsTo → rs ≠ [] →
      (findIncludeBelongsTo store Rel rel relationName rs).2 =
        [StoreOp.findQ Rel.collection
          (prepareQueryOrDocument Value.vOid Rel.attributes
            (.vObj [(Rel.primaryKey,
              .vObj [("$in",
                .vArr (rs.map (fun r => jsGet r rel.foreignKey)))])]) none)]) := by
  refine ⟨?_, ?_, ?_⟩
  · intro store Rel rel relationName pkName r ht hf
    simp [findOneInclude, ht, hf]
  · intro store Rel rel relationName pkName r ht hf
    constructor
    · simp [findOneInclude, ht, hf]
    · intro doc hdoc
      simp [findOneInclude, ht, hf, hdoc]
  · intro store Rel rel relationName rs ht hne
    obtain ⟨r0, rs', rfl⟩ := List.exists_cons_of_ne_nil hne
    simp [findIncludeBelongsTo, ht]

/-- C3 counterexample: a collection fetch including a `belongsTo` relation
for a single primary entity whose foreign key is null DOES issue a
follow-up query, with `null` inside the `$in` filter — the lookup is not
skipped on this path. -/
theorem belongsto_null_counterexample :
    (findIncludeBelongsTo [] entAuthor relAuthor
      "author" [[("id", Value.vNum 1), ("authorId", Value.vNull)]]).2 =
    [StoreOp.findQ "authors"
      (Value.vObj [("id", Value.vObj [("$in", Value.vArr [Value.vNull])])])] :=
  rfl

theorem belongsto_resolution_amended_witness :
    findOneInclude [] entAuthor relAuthor
      "author" "id" (some [("id", Value.vNum 1), ("authorId", Value.vNull)]) =
      (some [("id", Value.vNum 1), ("authorId", Value.vNull)], []) ∧
    (findIncludeBelongsTo [] entAuthor relAuthor
      "author" [[("id", Value.vNum 1), ("authorId", Value.vStr "a1")]]).2 =
      [StoreOp.findQ "authors"
        (prepareQueryOrDocument Value.vOid [("id", { primary := true })]
          (.vObj [("id", .vObj [("$in",
            .vArr ([[("id", Value.vNum 1), ("authorId", Value.vStr "a1")]].map
              (fun r => jsGet r "authorId")))])]) none)] :=
  ⟨belongsto_resolution_amended.1 [] _ _ "author" "id" _ rfl rfl,
   belongsto_resolution_amended.2.2 [] _ _ "author" _ rfl (by
     intro h
     cases h)⟩

/-! ## Through-predicate narrowing (C1) -/

theorem findPipeline_through (rt1 rt2 : RelType) (x : String) (store : Store) :
    findPipeline (envC1 rt1 rt2) (entR rt1) store [("a.b.f", Value.vStr x)] =
      .ok ((storeFind store "rcoll" (primQuery rt1 rt2 x store)).map
            (prepareResource oidToString (entR rt1).attributes),
        [StoreOp.findQ "ucoll" (deepQuery x),
         StoreOp.findQ "tcoll" (midQuery rt2 x store),
         StoreOp.findQ "rcoll" (primQuery rt1 rt2 x store)]) := by
  cases rt1 <;> cases rt2 <;> rfl

theorem findOnePipeline_through (rt1 rt2 : RelType) (x : String) (store : Store) :
    findOnePipeline (envC1 rt1 rt2) (entR rt1) store [("a.b.f", Value.vStr x)] =
      .ok (((storeFind store "rcoll" (primQuery rt1 rt2 x store)).head?).map
            (prepareResource oidToString (entR rt1).attributes),
        [StoreOp.findQ "ucoll" (deepQuery x),
         StoreOp.findQ "tcoll" (midQuery rt2 x store),
         StoreOp.findOneQ "rcoll" (primQuery rt1 rt2 x store)]) := by
  cases rt1 <;> cases rt2 <;> rfl

/-- C1 (amended): for a find/findOne over the through-predicate
configuration whose where clause is the single two-level predicate
`'a.b.f' = x` with a STRING value `x` (`unpack` only expands dotted keys
with string values; any non-string value crashes instead — see the
counterexample), the planner issues exactly three store queries in order:
`U`'s collection filtered by the deepest predicate, then `T`'s collection
filtered by the join key using `U`'s returned ids, then the primary query
filtered by the join key using `T`'s returned ids; and when the first
query returns zero documents, the primary query still runs with an empty
`$in` set and yields zero primary results — not an error. -/
theorem through_predicate_amended (rt1 rt2 : RelType) (x : String) (store : Store) :
    (findPipeline (envC1 rt1 rt2) (entR rt1) store [("a.b.f", Value.vStr x)] =
      .ok ((storeFind store "rcoll" (primQuery rt1 rt2 x store)).map
            (prepareResource oidToString (entR rt1).attributes),
        [StoreOp.findQ "ucoll" (deepQuery x),
         StoreOp.findQ "tcoll" (midQuery rt2 x store),
         StoreOp.findQ "rcoll" (primQuery rt1 rt2 x store)])) ∧
    (findOnePipeline (envC1 rt1 rt2) (entR rt1) store [("a.b.f", Value.vStr x)] =
      .ok (((storeFind store "rcoll" (primQuery rt1 rt2 x store)).head?).map
            (prepareResource oidToString (entR rt1).attributes),
        [StoreOp.findQ "ucoll" (deepQuery x),
         StoreOp.findQ "tcoll" (midQuery rt2 x store),
         StoreOp.findOneQ "rcoll" (primQuery rt1 rt2 x store)])) ∧
    (storeFind store "ucoll" (deepQuery x) = [] →
      findPipeline (envC1 rt1 rt2) (entR rt1) store [("a.b.f", Value.vStr x)] =
        .ok ([],
          [StoreOp.findQ "ucoll" (deepQuery x),
           StoreOp.findQ "tcoll" (.vObj [(tJoinKey rt2, .vObj [("$in", .vArr [])])]),
           StoreOp.findQ "rcoll" (.vObj [(rJoinKey rt1, .vObj [("$in", .vArr [])])])]) ∧
      findOnePipeline (envC1 rt1 rt2) (entR rt1) store [("a.b.f", Value.vStr x)] =
        .ok (none,
          [StoreOp.findQ "ucoll" (deepQuery x),
           StoreOp.findQ "tcoll" (.vObj [(tJoinKey rt2, .vObj [("$in", .vArr [])])]),
           StoreOp.findOneQ "rcoll" (.vObj [(rJoinKey rt1, .vObj [("$in", .vArr [])])])]) ) := by
  refine ⟨findPipeline_through rt1 rt2 x store,
    findOnePipeline_through rt1 rt2 x store, fun h => ?_⟩
  have hmid : midQuery rt2 x store =
      .vObj [(tJoinKey rt2, .vObj [("$in", .vArr [])])] := by
    unfold midQuery
    rw [h]
    rfl
  have htdocs : storeFind store "tcoll" (midQuery rt2 x store) = [] := by
    rw [hmid]
    exact storeFind_in_nil store "tcoll" (tJoinKey rt2)
  have hprim : primQuery rt1 rt2 x store =
      .vObj [(rJoinKey rt1, .vObj [("$in", .vArr [])])] := by
    unfold primQuery
    rw [htdocs]
    rfl
  have hrdocs : storeFind store "rcoll" (primQuery rt1 rt2 x store) = [] := by
    rw [hprim]
    exact storeFind_in_nil store "rcoll" (rJoinKey rt1)
  constructor
  · rw [findPipeline_through rt1 rt2 x store, hrdocs, hmid, hprim]
    rfl
  · rw [findOnePipeline_through rt1 rt2 x store, hrdocs, hmid, hprim]
    rfl

theorem through_predicate_amended_witness :
    findPipeline (envC1 RelType.hasMany RelType.belongsTo)
        (entR RelType.hasMany) [] [("a.b.f", Value.vStr "alex")] =
      .ok ([],
        [StoreOp.findQ "ucoll" (deepQuery "alex"),
         StoreOp.findQ "tcoll"
           (.vObj [(tJoinKey RelType.belongsTo, .vObj [("$in", .vArr [])])]),
         StoreOp.findQ "rcoll"
           (.vObj [(rJoinKey RelType.hasMany, .vObj [("$in", .vArr [])])])]) :=
  ((through_predicate_amended RelType.hasMany RelType.belongsTo "alex" []).2.2 rfl).1

/-- C1 counterexample: with a NON-string predicate value
(`where: {'a.b.f': 1}`), `unpack` does not expand the dotted key, so
`whereRelation` is undefined and accessing its nested member throws a
synchronous TypeError before any store query is issued — the claim's
"three store queries … zero primary results, not an error" fails for this
input. -/
theorem through_predicate_counterexample :
    findPipeline (envC1 RelType.hasMany RelType.belongsTo)
        (entR RelType.hasMany) [] [("a.b.f", Value.vNum 1)] =
      .error JsError.typeError :=
  rfl

end MioMongo
